import Mathlib

/-!
Shallow embedding of github.com/justwatchcom/go-seo4ajax (src/seo4ajax.go).

Strings stand for Go strings; the Go standard-library and pinned-dependency
primitives the source calls (strings.Contains, net/http.Header.Get/Set/Del,
net/url.URL.String for Go 1.12, cenkalti/backoff v2.2.1) are modelled from
their implementations where the source depends on their behaviour.
-/

namespace Seo4Ajax

/-- Go `strings.Contains s sub`: `sub` occurs as a contiguous substring of `s`. -/
def goContains (s sub : String) : Bool :=
  s.toList.tails.any (fun t => sub.toList.isPrefixOf t)

/-- ASCII lower-casing of one character; models the case folding performed by a
Go `(?i:...)` regex over the ASCII alternatives appearing in seo4ajax.go. -/
def asciiLower (c : Char) : Char :=
  if 'A' ≤ c ∧ c ≤ 'Z' then Char.ofNat (c.toNat + 32) else c

/-- The characters of `s`, ASCII-lower-cased. -/
def lowerList (s : String) : List Char := s.toList.map asciiLower

/-- Matcher for a regex tail `X.*Y`: from this position, `lit` after a run of
non-newline characters (Go `.` does not match a newline). -/
def dotStarThenLit (lit : List Char) : List Char → Bool
  | [] => lit.isEmpty
  | c :: t => lit.isPrefixOf (c :: t) || ((c != '\n') && dotStarThenLit lit t)

/-- One alternative of `regexInvalidUserAgent` starting at this position
(input already lower-cased): `bing|msnbot|yandexbot|pinterest.*ios|mail\.ru`. -/
def invalidAgentAt (t : List Char) : Bool :=
  "bing".toList.isPrefixOf t || "msnbot".toList.isPrefixOf t ||
  "yandexbot".toList.isPrefixOf t ||
  ("pinterest".toList.isPrefixOf t && dotStarThenLit "ios".toList (t.drop 9)) ||
  "mail.ru".toList.isPrefixOf t

/-- seo4ajax.go line 30: `regexInvalidUserAgent.MatchString ua` for
`(?i:bing|msnbot|yandexbot|pinterest.*ios|mail\.ru)`. `MatchString` is
unanchored, so the pattern may start at any position. -/
def regexInvalidUserAgent (ua : String) : Bool :=
  (lowerList ua).tails.any invalidAgentAt

/-- One alternative of `regexValidUserAgent` starting at this position
(input already lower-cased). -/
def validAgentAt (t : List Char) : Bool :=
  "bot".toList.isPrefixOf t || "google".toList.isPrefixOf t ||
  "crawler".toList.isPrefixOf t || "spider".toList.isPrefixOf t ||
  "archiver".toList.isPrefixOf t || "pinterest".toList.isPrefixOf t ||
  "facebookexternalhit".toList.isPrefixOf t || "flipboardproxy".toList.isPrefixOf t

/-- seo4ajax.go line 31: `regexValidUserAgent.MatchString ua` for
`(?i:bot|google|crawler|spider|archiver|pinterest|facebookexternalhit|flipboardproxy)`. -/
def regexValidUserAgent (ua : String) : Bool :=
  (lowerList ua).tails.any validAgentAt

/-- First alternative `\.[^?]{2,4}$` of `regexPath` starting at this position:
`$` anchors at the end of the input, so the whole remaining suffix must be a
dot followed by 2 to 4 non-`?` characters. -/
def pathAlt1 : List Char → Bool
  | '.' :: cs =>
    decide (2 ≤ cs.length) && decide (cs.length ≤ 4) && cs.all (fun c => c != '?')
  | _ => false

/-- Second alternative `\.[^?]{2,4}?.*` of `regexPath` starting at this
position. The `?` after `{2,4}` is a lazy-quantifier marker (not an escaped
literal `?`), so the alternative matches a dot followed by at least two
non-`?` characters, with the trailing `.*` allowed to be empty. -/
def pathAlt2 : List Char → Bool
  | '.' :: a :: b :: _ => (a != '?') && (b != '?')
  | _ => false

/-- seo4ajax.go line 32: `regexPath.MatchString path` for
`.*(\.[^?]{2,4}$|\.[^?]{2,4}?.*)`. `MatchString` is unanchored and the
leading `.*` may be empty, so a match exists exactly when one of the two
alternatives matches starting at some position of the input. -/
def regexPath (path : String) : Bool :=
  path.toList.tails.any (fun t => pathAlt1 t || pathAlt2 t)

/-- Go `net/http.Header`, modelled as an association list with canonical MIME
keys and single-valued entries (the only shape the source reads or writes). -/
abbrev Header := List (String × String)

/-- Go `Header.Get k`: first value bound to `k`, `""` when absent. -/
def headerGet (h : Header) (k : String) : String :=
  match h.find? (fun p => p.1 == k) with
  | some p => p.2
  | none => ""

/-- Go `Header.Set k v`: replace every binding of `k` by the single value `v`. -/
def headerSet (h : Header) (k v : String) : Header :=
  (k, v) :: h.filter (fun p => p.1 != k)

/-- Go `Header.Del k`: remove every binding of `k`. -/
def headerDel (h : Header) (k : String) : Header :=
  h.filter (fun p => p.1 != k)

/-- The fields of Go `net/url.URL` used by seo4ajax.go; `user` is the
userinfo component (`nil` or present), `opq` the Opaque component. Path and
query strings stand for their escaped forms (`RawPath` empty). -/
structure URL where
  scheme : String := ""
  opq : String := ""
  user : Option String := none
  host : String := ""
  path : String := ""
  rawQuery : String := ""
  forceQuery : Bool := false
  fragment : String := ""
deriving DecidableEq

/-- An inbound Go `http.Request` as read by the source: method, URL, and the
(mutable, shared) header map. -/
structure Request where
  method : String
  url : URL := {}
  header : Header := []
deriving DecidableEq

/-- seo4ajax.go lines 116-134: `IsPrerender`. -/
def IsPrerender (r : Request) : Bool :=
  if r.method ≠ "GET" ∧ r.method ≠ "HEAD" then false
  else if goContains r.url.rawQuery "_escaped_fragment_" then true
  else if regexInvalidUserAgent (headerGet r.header "User-Agent") then false
  else if regexPath r.url.path then false
  else regexValidUserAgent (headerGet r.header "User-Agent")

/-- Does the string begin with the byte `/` (Go `s[0] != '/'` check, negated)? -/
def startsWithSlash (s : String) : Bool :=
  match s.data with
  | c :: _ => c == '/'
  | [] => false

/-- Does the first path segment (the part before any `/`) contain a colon?
Models the Go 1.12 `url.URL.String` check
`strings.IndexByte(path, ':') > -1 && strings.IndexByte(path[:i], '/') == -1`. -/
def firstSegmentHasColon (s : String) : Bool :=
  (s.data.takeWhile (fun c => c != '/')).any (fun c => c == ':')

/-- The `?query` suffix written by `url.URL.String`. -/
def querySuffix (u : URL) : String :=
  if u.forceQuery ∨ u.rawQuery ≠ "" then "?" ++ u.rawQuery else ""

/-- The `#fragment` suffix written by `url.URL.String`. -/
def fragmentSuffix (u : URL) : String :=
  if u.fragment ≠ "" then "#" ++ u.fragment else ""

/-- Model of Go 1.12 `net/url.URL.String`, with `EscapedPath` and host/fragment
escaping modelled as the identity (strings stand for their escaped forms). -/
def urlString (u : URL) : String :=
  let scheme := if u.scheme ≠ "" then u.scheme ++ ":" else ""
  if u.opq ≠ "" then
    scheme ++ u.opq ++ querySuffix u ++ fragmentSuffix u
  else
    let auth :=
      if u.scheme ≠ "" ∨ u.host ≠ "" ∨ u.user.isSome then
        (if u.host ≠ "" ∨ u.path ≠ "" ∨ u.user.isSome then "//" else "")
          ++ (match u.user with | some ui => ui ++ "@" | none => "")
          ++ u.host
      else ""
    let slash := if u.path ≠ "" ∧ startsWithSlash u.path = false ∧ u.host ≠ "" then "/" else ""
    let pre := scheme ++ auth ++ slash
    let pre := if pre = "" ∧ firstSegmentHasColon u.path then pre ++ "./" else pre
    pre ++ u.path ++ querySuffix u ++ fragmentSuffix u

/-- seo4ajax.go lines 231-245: `cleanPath` — normalize the path to start with
`/`, zero out Scheme, Opaque, User and Host, and render the remainder. -/
def cleanPath (u : URL) : String :=
  let path :=
    if u.path = "" then "/"
    else if startsWithSlash u.path = false then "/" ++ u.path
    else u.path
  urlString { u with scheme := "", opq := "", user := none, host := "", path := path }

/-- seo4ajax.go line 160: the outbound URL
`fmt.Sprintf("%s/%s%s", c.server, c.token, cleanPath(r.URL))`. -/
def upstreamURL (server token : String) (u : URL) : String :=
  server ++ "/" ++ token ++ cleanPath u

/-- seo4ajax.go lines 36-54: `Config` (durations in nanoseconds; the `Log`,
`Next` and `Transport` interface fields carry no decision logic and are
omitted). -/
structure Config where
  server : String := ""
  token : String := ""
  ip : String := ""
  timeout : Nat := 0
  unconditionalFetch : Bool := false
  fetchErrorStatus : Nat := 0
  fetchTimeout : Nat := 0
  retryUnavailable : Bool := false
deriving DecidableEq

/-- seo4ajax.go lines 57-68: `Client` (again without the interface-valued
plumbing fields). -/
structure Client where
  server : String := ""
  token : String := ""
  ip : String := ""
  timeout : Nat := 0
  unconditionalFetch : Bool := false
  fetchErrorStatus : Nat := 0
  fetchTimeout : Nat := 0
  retryUnavailable : Bool := false
deriving DecidableEq

/-- The construction-time error of `New` (`ErrNoToken`). -/
inductive NewError where
  | noToken
deriving DecidableEq

/-- seo4ajax.go lines 71-112: `New` — default the server, reject an empty
token, default the IP and the fetch-error status, and build the client. -/
def New (cfg : Config) : Except NewError Client :=
  let server := if cfg.server = "" then "http://api.seo4ajax.com" else cfg.server
  if cfg.token = "" then Except.error NewError.noToken
  else
    let ip := if cfg.ip = "" then "127.0.0.1" else cfg.ip
    let fes := if cfg.fetchErrorStatus = 0 then 503 else cfg.fetchErrorStatus
    Except.ok { server := server, token := cfg.token, ip := ip, timeout := cfg.timeout,
                unconditionalFetch := cfg.unconditionalFetch, fetchErrorStatus := fes,
                fetchTimeout := cfg.fetchTimeout, retryUnavailable := cfg.retryUnavailable }

/-- seo4ajax.go lines 165-175: header mutation performed by each attempt of
`opFunc`. Because of `req.Header = r.Header` (line 165) the map written here
IS the original request's header map, so attempts see each other's writes. -/
def buildHeaders (c : Client) (hdr : Header) : Header :=
  let xff := headerGet hdr "X-Forwarded-For"
  let joined := if xff = "" then c.ip else c.ip ++ ", " ++ xff
  let hdr := headerSet hdr "X-Forwarded-For" joined
  if c.unconditionalFetch then headerDel (headerDel hdr "If-Modified-Since") "If-None-Match"
  else hdr

/-- One upstream response as `opFunc` observes it after `c.http.Do`:
status code, the `Location` header, all headers, the body bytes actually
delivered, and whether `io.Copy` of the body completes without error. -/
structure Response where
  statusCode : Nat := 0
  location : String := ""
  header : Header := []
  body : String := ""
  streamOk : Bool := true
deriving DecidableEq

/-- The outcome of one transport round-trip: a non-redirect transport error
(`err` — retried), or a response (a refused redirect surfaces here as a
response with status 302, per the `errRedirect` suffix check on line 178). -/
inductive Outcome where
  | err
  | resp (r : Response)
deriving DecidableEq

/-- What one attempt writes to the original `http.ResponseWriter`. -/
inductive WriteEvent where
  | redirectSent (location : String)
  | headersCopied (h : Header)
  | bodyChunk (b : String)
  | errorResp (msg : String) (code : Nat)
deriving DecidableEq

/-- Classification of an `opFunc` return value for `backoff.Retry`:
`nil` / `backoff.Permanent(...)` / any other non-nil error. -/
inductive OpResult where
  | success
  | transient
  | permanent
deriving DecidableEq

/-- The visible effect of one `opFunc` attempt. -/
structure AttemptResult where
  header : Header
  events : List WriteEvent
  result : OpResult
  outputStarted : Bool
deriving DecidableEq

/-- seo4ajax.go lines 159-212: one attempt of `opFunc`, given the current
shared header map and the upstream outcome for this attempt. On 200 the
headers are copied, `outputStarted` is set and the body is streamed; a
failing `io.Copy` makes `opFunc` return its (non-permanent) error. -/
def opFunc (c : Client) (hdr : Header) (o : Outcome) : AttemptResult :=
  let hdr := buildHeaders c hdr
  match o with
  | Outcome.err => { header := hdr, events := [], result := OpResult.transient, outputStarted := false }
  | Outcome.resp r =>
    if r.statusCode = 302 then
      { header := hdr, events := [WriteEvent.redirectSent r.location],
        result := OpResult.success, outputStarted := false }
    else if c.retryUnavailable = false ∧ r.statusCode = 503 then
      { header := hdr, events := [], result := OpResult.permanent, outputStarted := false }
    else if c.retryUnavailable = false ∧ r.statusCode = 404 then
      { header := hdr, events := [], result := OpResult.permanent, outputStarted := false }
    else if r.statusCode ≠ 200 then
      { header := hdr, events := [], result := OpResult.transient, outputStarted := false }
    else
      { header := hdr, events := [WriteEvent.headersCopied r.header, WriteEvent.bodyChunk r.body],
        result := (if r.streamOk then OpResult.success else OpResult.transient),
        outputStarted := true }

/-- The state threaded through the retry loop: the shared header map, all
writer events so far, the `outputStarted` flag and the attempt count. -/
structure FetchState where
  header : Header
  events : List WriteEvent
  outputStarted : Bool
  attempts : Nat
deriving DecidableEq

/-- `backoff.Retry(opFunc, bo)` (cenkalti/backoff v2.2.1): run attempts until
success or a permanent error. The elapsed-time budget is externalized: the
outcome list holds the upstream outcome of each attempt the budget admits,
and an exhausted list is budget exhaustion (the last transient error is
returned). The second component is `err ≠ nil`. -/
def retryLoop (c : Client) : List Outcome → FetchState → FetchState × Bool
  | [], st => (st, true)
  | o :: rest, st =>
    let a := opFunc c st.header o
    let st' : FetchState :=
      { header := a.header, events := st.events ++ a.events,
        outputStarted := st.outputStarted || a.outputStarted, attempts := st.attempts + 1 }
    match a.result with
    | OpResult.success => (st', false)
    | OpResult.permanent => (st', true)
    | OpResult.transient => retryLoop c rest st'

/-- seo4ajax.go lines 157-229: `GetPrerenderedPage` — run the retry loop and,
when it ends in error with no output started, write the fallback
`http.Error(w, "Upstream error", c.fetchErrorStatus)`. -/
def GetPrerenderedPage (c : Client) (hdr : Header) (outcomes : List Outcome) : FetchState :=
  let st0 : FetchState := { header := hdr, events := [], outputStarted := false, attempts := 0 }
  let r := retryLoop c outcomes st0
  if r.2 ∧ r.1.outputStarted = false then
    { r.1 with events := r.1.events ++ [WriteEvent.errorResp "Upstream error" c.fetchErrorStatus] }
  else r.1

/-- The fields of `backoff.ExponentialBackOff` (cenkalti/backoff v2.2.1)
relevant to the stopping decision, with durations in nanoseconds. -/
structure ExponentialBackOff where
  initialInterval : Nat
  maxInterval : Nat
  maxElapsedTime : Nat
deriving DecidableEq

/-- `backoff.NewExponentialBackOff()` defaults (cenkalti/backoff v2.2.1):
InitialInterval 500ms, MaxInterval 60s, MaxElapsedTime 15 minutes. -/
def newExponentialBackOff : ExponentialBackOff :=
  { initialInterval := 500000000, maxInterval := 60000000000, maxElapsedTime := 900000000000 }

/-- seo4ajax.go lines 214-219: the backoff policy built by
`GetPrerenderedPage` — InitialInterval 50ms, MaxInterval 30s, and
MaxElapsedTime overridden by `c.timeout` only when it is positive. -/
def fetchBackOff (timeout : Nat) : ExponentialBackOff :=
  let bo := newExponentialBackOff
  let bo := { bo with initialInterval := 50000000, maxInterval := 30000000000 }
  if 0 < timeout then { bo with maxElapsedTime := timeout } else bo

/-- The stop test of `ExponentialBackOff.NextBackOff` (cenkalti/backoff
v2.2.1): `Stop` is returned exactly when `MaxElapsedTime != 0` and the
elapsed time exceeds it; `backoff.Retry` then gives up. -/
def nextBackOffStops (b : ExponentialBackOff) (elapsed : Nat) : Bool :=
  (b.maxElapsedTime != 0) && decide (b.maxElapsedTime < elapsed)

/-- The Googlebot user-agent string of the repository's own test file. -/
def googlebotUA : String :=
  "Mozilla/5.0 (compatible; Googlebot/2.1; +http://www.google.com/bot.html)"

/-- The bingbot user-agent string of the repository's own test file. -/
def bingbotUA : String :=
  "Mozilla/5.0 (compatible; bingbot/2.0; +http://www.bing.com/bingbot.htm)"

/-- The repository test's bingbot request: GET `/path/subpath`. -/
def bingbotReq : Request :=
  { method := "GET", url := { path := "/path/subpath" }, header := [("User-Agent", bingbotUA)] }

/-- A GET request with `_escaped_fragment_`, a deny-listed user-agent and a
static-looking path. -/
def c6req : Request :=
  { method := "GET", url := { path := "/x.png", rawQuery := "a=1&_escaped_fragment_=" },
    header := [("User-Agent", bingbotUA)] }

/-- The same request with method POST. -/
def c6reqPost : Request := { c6req with method := "POST" }

/-- The state after one more attempt: the shared headers rewritten, the
attempt's writes appended, `outputStarted` accumulated, the count bumped. -/
def stepState (c : Client) (st : FetchState) (o : Outcome) : FetchState :=
  { header := (opFunc c st.header o).header,
    events := st.events ++ (opFunc c st.header o).events,
    outputStarted := st.outputStarted || (opFunc c st.header o).outputStarted,
    attempts := st.attempts + 1 }

/-- The path normalization of `cleanPath` (empty path becomes `/`, a relative
path gets `/` prepended, an absolute path is kept). -/
def normPath (path : String) : String :=
  if path = "" then "/"
  else if startsWithSlash path = false then "/" ++ path
  else path

/-- A concrete client for the streaming-failure scenario. -/
def c3client : Client := { ip := "1.2.3.4", fetchErrorStatus := 503 }

/-- A 200 upstream response whose body copy fails mid-stream. -/
def c3resp1 : Response :=
  { statusCode := 200, header := [("Content-Type", "text/html")],
    body := "partial", streamOk := false }

/-- A 200 upstream response that streams to completion. -/
def c3resp2 : Response :=
  { statusCode := 200, header := [("Content-Type", "text/html")],
    body := "rest", streamOk := true }

/-- The URL of `http://host/a/b?x=1` as parsed by net/url. -/
def c8url : URL := { scheme := "http", host := "host", path := "/a/b", rawQuery := "x=1" }

/-! Theorems about the embedded program. -/

/-- C1: the claim says paths with only an interior dot (`/v1.0/users`) or with
an extension longer than 4 characters (`/file.abcde`) are not excluded, so
with an allow-listed, non-deny-listed user-agent `IsPrerender` returns true.
The code diverges: the unescaped `?` in `regexPath` makes `{2,4}?` a lazy
quantifier, the pattern matches any path containing a dot followed by two
non-`?` characters, and `IsPrerender` returns false on both example paths. -/
theorem C1_code_divergence :
    IsPrerender { method := "GET", url := { path := "/v1.0/users" },
                  header := [("User-Agent", "crawler")] } = false
    ∧ IsPrerender { method := "GET", url := { path := "/file.abcde" },
                    header := [("User-Agent", "crawler")] } = false
    ∧ regexValidUserAgent "crawler" = true
    ∧ regexInvalidUserAgent "crawler" = false
    ∧ regexPath "/v1.0/users" = true
    ∧ regexPath "/file.abcde" = true := by decide

/-- C2 counterexample: the claim says a major search engine's standard bot
string such as Googlebot's matches the deny-list and classifies false; in the
code the deny-list is `bing|msnbot|yandexbot|pinterest.*ios|mail\.ru`, the
Googlebot string does not match it, and `IsPrerender` returns true (as the
repository's own test expects). -/
theorem C2_counterexample :
    IsPrerender { method := "GET", url := { path := "/path/subpath" },
                  header := [("User-Agent", googlebotUA)] } = true
    ∧ regexInvalidUserAgent googlebotUA = false
    ∧ regexValidUserAgent googlebotUA = true := by decide

/-- C2 (amended): for a GET request without `_escaped_fragment_`, a user-agent
matching the deny-list `bing|msnbot|yandexbot|pinterest.*ios|mail\.ru` makes
`IsPrerender` return false regardless of the path or of any allow-list match
(the deny check runs first); the bingbot string is such an agent, and it also
matches the generic allow-list. -/
theorem C2_deny_precedence (r : Request)
    (hm : r.method = "GET")
    (hq : goContains r.url.rawQuery "_escaped_fragment_" = false)
    (hua : regexInvalidUserAgent (headerGet r.header "User-Agent") = true) :
    IsPrerender r = false
    ∧ regexInvalidUserAgent bingbotUA = true
    ∧ regexValidUserAgent bingbotUA = true := by
  refine ⟨?_, by decide, by decide⟩
  have hm' : ¬(r.method ≠ "GET" ∧ r.method ≠ "HEAD") := by simp [hm]
  simp [IsPrerender, hm', hq, hua]

/-- Witness for `C2_deny_precedence` at the bingbot request. -/
theorem C2_witness :
    IsPrerender bingbotReq = false ∧ regexValidUserAgent bingbotUA = true := by
  have h := C2_deny_precedence bingbotReq rfl (by decide) (by decide)
  exact ⟨h.1, h.2.2⟩

/-- C6: whenever the raw query contains `_escaped_fragment_`, `IsPrerender`
returns true exactly when the method is GET or HEAD — independently of the
user-agent and the path — and false for every other method. -/
theorem C6_escaped_fragment (r : Request)
    (hq : goContains r.url.rawQuery "_escaped_fragment_" = true) :
    IsPrerender r = true ↔ (r.method = "GET" ∨ r.method = "HEAD") := by
  by_cases hm : r.method ≠ "GET" ∧ r.method ≠ "HEAD"
  · simp only [IsPrerender, if_pos hm]
    constructor
    · intro h; exact absurd h (by simp)
    · intro h; exact absurd h (by tauto)
  · simp only [IsPrerender, if_neg hm, hq, if_pos]
    constructor
    · intro _
      rcases Decidable.em (r.method = "GET") with h | h
      · exact Or.inl h
      · exact Or.inr (by tauto)
    · intro _; trivial

/-- Witness for `C6_escaped_fragment`: true on the GET request even with a
deny-listed agent and static path, false on the POST request. -/
theorem C6_witness :
    IsPrerender c6req = true ∧ IsPrerender c6reqPost = false := by
  constructor
  · exact (C6_escaped_fragment c6req (by decide)).mpr (Or.inl rfl)
  · cases hb : IsPrerender c6reqPost
    · rfl
    · exact absurd ((C6_escaped_fragment c6reqPost (by decide)).mp hb) (by decide)

/-- C9: `New` returns `ErrNoToken` with no client exactly when the token is
empty; for a non-empty token it returns a client whose server, IP and
fetch-error status are the given values, or the defaults
`http://api.seo4ajax.com`, `127.0.0.1` and 503 when unset. -/
theorem C9_new_client (cfg : Config) :
    (New cfg = Except.error NewError.noToken ↔ cfg.token = "")
    ∧ (cfg.token ≠ "" → ∃ c, New cfg = Except.ok c
        ∧ c.token = cfg.token
        ∧ (cfg.server = "" → c.server = "http://api.seo4ajax.com")
        ∧ (cfg.server ≠ "" → c.server = cfg.server)
        ∧ (cfg.ip = "" → c.ip = "127.0.0.1")
        ∧ (cfg.ip ≠ "" → c.ip = cfg.ip)
        ∧ (cfg.fetchErrorStatus = 0 → c.fetchErrorStatus = 503)
        ∧ (cfg.fetchErrorStatus ≠ 0 → c.fetchErrorStatus = cfg.fetchErrorStatus)) := by
  by_cases ht : cfg.token = ""
  · refine ⟨by simp [New, ht], fun h => absurd ht h⟩
  · constructor
    · simp [New, ht]
    · intro _
      refine ⟨{ server := if cfg.server = "" then "http://api.seo4ajax.com" else cfg.server,
                token := cfg.token,
                ip := if cfg.ip = "" then "127.0.0.1" else cfg.ip,
                timeout := cfg.timeout, unconditionalFetch := cfg.unconditionalFetch,
                fetchErrorStatus := if cfg.fetchErrorStatus = 0 then 503 else cfg.fetchErrorStatus,
                fetchTimeout := cfg.fetchTimeout, retryUnavailable := cfg.retryUnavailable },
              by simp [New, ht], rfl, ?_, ?_, ?_, ?_, ?_, ?_⟩ <;> intro h <;> simp [h]

/-- Witness for `C9_new_client`: an empty-token config fails with
`ErrNoToken`; a token-only config yields a client with all three defaults. -/
theorem C9_witness :
    New ({ token := "" } : Config) = Except.error NewError.noToken
    ∧ ∃ c, New ({ token := "tok" } : Config) = Except.ok c
        ∧ c.token = "tok" ∧ c.server = "http://api.seo4ajax.com"
        ∧ c.ip = "127.0.0.1" ∧ c.fetchErrorStatus = 503 := by
  constructor
  · exact (C9_new_client { token := "" }).1.mpr rfl
  · obtain ⟨c, hc, htok, hs, _, hip, _, hfes, _⟩ :=
      (C9_new_client { token := "tok" }).2 (by decide)
    exact ⟨c, hc, htok, hs rfl, hip rfl, hfes rfl⟩

/-- C4 counterexample: the claim says a zero `Config.Timeout` makes the retry
loop unbounded in elapsed time. In the code a zero timeout leaves the
`NewExponentialBackOff` default `MaxElapsedTime` of 15 minutes
(900000000000 ns) in place, and `NextBackOff` returns `Stop` — so the loop
gives up — once elapsed time exceeds it, e.g. at 900000000001 ns. -/
theorem C4_counterexample :
    (fetchBackOff 0).maxElapsedTime = 900000000000
    ∧ nextBackOffStops (fetchBackOff 0) 900000000001 = true := by decide

/-- C4 (amended): with a zero `Config.Timeout` the backoff keeps the library
default bound of 15 minutes and stops exactly when elapsed time exceeds it;
a positive timeout replaces the bound. Retrying is never unbounded. -/
theorem C4_bounded_retry (t e : Nat) :
    (nextBackOffStops (fetchBackOff 0) e = true ↔ 900000000000 < e)
    ∧ (0 < t → (fetchBackOff t).maxElapsedTime = t
        ∧ (nextBackOffStops (fetchBackOff t) e = true ↔ t < e)) := by
  constructor
  · simp [fetchBackOff, newExponentialBackOff, nextBackOffStops]
  · intro ht
    constructor
    · simp [fetchBackOff, newExponentialBackOff, ht]
    · simp [fetchBackOff, newExponentialBackOff, nextBackOffStops, ht]
      omega

/-- Witness for `C4_bounded_retry` at timeout 5 ns and elapsed 6 ns. -/
theorem C4_witness :
    (nextBackOffStops (fetchBackOff 0) 900000000001 = true ↔ 900000000000 < 900000000001)
    ∧ ((fetchBackOff 5).maxElapsedTime = 5
        ∧ (nextBackOffStops (fetchBackOff 5) 6 = true ↔ 5 < 6)) := by
  exact ⟨(C4_bounded_retry 5 900000000001).1, (C4_bounded_retry 5 6).2 (by decide)⟩


theorem headerGet_cons (p : String × String) (t : Header) (k : String) :
    headerGet (p :: t) k = if p.1 = k then p.2 else headerGet t k := by
  by_cases h : p.1 = k
  · have hb : (p.1 == k) = true := by simp [h]
    simp [headerGet, List.find?, hb, h]
  · have hb : (p.1 == k) = false := by simp [h]
    simp [headerGet, List.find?, hb, h]

theorem headerGet_set_self (h : Header) (k v : String) :
    headerGet (headerSet h k v) k = v := by
  simp [headerSet, headerGet_cons]

theorem headerGet_del_ne (h : Header) (k k' : String) (hne : k ≠ k') :
    headerGet (headerDel h k') k = headerGet h k := by
  induction h with
  | nil => rfl
  | cons p t ih =>
    by_cases hp : p.1 = k'
    · have hd : (p.1 != k') = false := by simp [hp]
      have hk : p.1 ≠ k := fun hc => hne (by rw [← hc, hp])
      calc headerGet (headerDel (p :: t) k') k
          = headerGet (headerDel t k') k := by simp [headerDel, List.filter_cons, hd]
        _ = headerGet t k := ih
        _ = headerGet (p :: t) k := by rw [headerGet_cons, if_neg hk]
    · have hd : (p.1 != k') = true := by simp [hp]
      calc headerGet (headerDel (p :: t) k') k
          = headerGet (p :: headerDel t k') k := by simp [headerDel, List.filter_cons, hd]
        _ = if p.1 = k then p.2 else headerGet (headerDel t k') k := headerGet_cons p _ k
        _ = if p.1 = k then p.2 else headerGet t k := by rw [ih]
        _ = headerGet (p :: t) k := (headerGet_cons p t k).symm

theorem headerGet_del_self (h : Header) (k : String) :
    headerGet (headerDel h k) k = "" := by
  induction h with
  | nil => rfl
  | cons p t ih =>
    by_cases hp : p.1 = k
    · have hd : (p.1 != k) = false := by simp [hp]
      calc headerGet (headerDel (p :: t) k) k
          = headerGet (headerDel t k) k := by simp [headerDel, List.filter_cons, hd]
        _ = "" := ih
    · have hd : (p.1 != k) = true := by simp [hp]
      calc headerGet (headerDel (p :: t) k) k
          = headerGet (p :: headerDel t k) k := by simp [headerDel, List.filter_cons, hd]
        _ = if p.1 = k then p.2 else headerGet (headerDel t k) k := headerGet_cons p _ k
        _ = headerGet (headerDel t k) k := by rw [if_neg hp]
        _ = "" := ih

theorem headerGet_buildHeaders_xff (c : Client) (hdr : Header) :
    headerGet (buildHeaders c hdr) "X-Forwarded-For"
      = (if headerGet hdr "X-Forwarded-For" = "" then c.ip
         else c.ip ++ ", " ++ headerGet hdr "X-Forwarded-For") := by
  unfold buildHeaders
  by_cases hu : c.unconditionalFetch
  · simp only [hu, if_true]
    rw [headerGet_del_ne _ _ _ (by decide), headerGet_del_ne _ _ _ (by decide),
      headerGet_set_self]
  · simp only [hu, Bool.false_eq_true, if_false]
    rw [headerGet_set_self]

theorem headerGet_buildHeaders_cache (c : Client) (hdr : Header)
    (hu : c.unconditionalFetch = true) :
    headerGet (buildHeaders c hdr) "If-Modified-Since" = ""
    ∧ headerGet (buildHeaders c hdr) "If-None-Match" = "" := by
  unfold buildHeaders
  simp only [hu, if_true]
  constructor
  · rw [headerGet_del_ne _ _ _ (by decide), headerGet_del_self]
  · rw [headerGet_del_self]

theorem append_sep_ne_empty (a b : String) : a ++ ", " ++ b ≠ "" := by
  intro h
  have hl := congrArg String.length h
  rw [String.length_append, String.length_append] at hl
  have h2 : (", " : String).length = 2 := rfl
  have h0 : ("" : String).length = 0 := rfl
  omega

theorem opFunc_header (c : Client) (hdr : Header) (o : Outcome) :
    (opFunc c hdr o).header = buildHeaders c hdr := by
  cases o with
  | err => rfl
  | resp r =>
    simp only [opFunc]
    repeat' split
    all_goals rfl

theorem retryLoop_cons_eq (c : Client) (o : Outcome) (os : List Outcome) (st : FetchState) :
    retryLoop c (o :: os) st
      = match (opFunc c st.header o).result with
        | OpResult.success => (stepState c st o, false)
        | OpResult.permanent => (stepState c st o, true)
        | OpResult.transient => retryLoop c os (stepState c st o) := rfl

theorem retryLoop_single_fst (c : Client) (o : Outcome) (st : FetchState) :
    (retryLoop c [o] st).1 = stepState c st o := by
  rw [retryLoop_cons_eq]
  cases h : (opFunc c st.header o).result <;> simp [h, retryLoop]

theorem getPage_header (c : Client) (hdr : Header) (os : List Outcome) :
    (GetPrerenderedPage c hdr os).header
      = (retryLoop c os { header := hdr, events := [], outputStarted := false, attempts := 0 }).1.header := by
  unfold GetPrerenderedPage
  dsimp only
  split <;> rfl

theorem getPage_attempts (c : Client) (hdr : Header) (os : List Outcome) :
    (GetPrerenderedPage c hdr os).attempts
      = (retryLoop c os { header := hdr, events := [], outputStarted := false, attempts := 0 }).1.attempts := by
  unfold GetPrerenderedPage
  dsimp only
  split <;> rfl

theorem retryLoop_attempts_ge (c : Client) (os : List Outcome) (st : FetchState) :
    st.attempts ≤ (retryLoop c os st).1.attempts := by
  induction os generalizing st with
  | nil => exact Nat.le_refl _
  | cons o rest ih =>
    rw [retryLoop_cons_eq]
    cases h : (opFunc c st.header o).result <;> simp only [h]
    · show st.attempts ≤ (stepState c st o).attempts
      simp only [stepState]
      omega
    · have h2 := ih (stepState c st o)
      rw [show (stepState c st o).attempts = st.attempts + 1 from rfl] at h2
      exact Nat.le_trans (Nat.le_succ st.attempts) h2
    · show st.attempts ≤ (stepState c st o).attempts
      simp only [stepState]
      omega

theorem retryLoop_attempts_cons (c : Client) (o : Outcome) (os : List Outcome)
    (st : FetchState) :
    st.attempts + 1 ≤ (retryLoop c (o :: os) st).1.attempts := by
  rw [retryLoop_cons_eq]
  cases h : (opFunc c st.header o).result <;> simp only [h]
  · show st.attempts + 1 ≤ (stepState c st o).attempts
    exact Nat.le_refl _
  · have h2 := retryLoop_attempts_ge c os (stepState c st o)
    rw [show (stepState c st o).attempts = st.attempts + 1 from rfl] at h2
    exact h2
  · show st.attempts + 1 ≤ (stepState c st o).attempts
    exact Nat.le_refl _

/-- C10: because `req.Header = r.Header` aliases the caller's map, each
attempt rewrites the original request's headers. After a transient first
attempt and a second attempt, the shared map holds the twice-applied
mutation: the forwarding chain is `ip, ip, originalChain`, and with
`UnconditionalFetch` the conditional-cache headers are gone from the
caller's map. -/
theorem C10_header_aliasing (c : Client) (hdr : Header) (o2 : Outcome)
    (hx : headerGet hdr "X-Forwarded-For" ≠ "") :
    (GetPrerenderedPage c hdr [Outcome.err, o2]).header
        = buildHeaders c (buildHeaders c hdr)
    ∧ headerGet (GetPrerenderedPage c hdr [Outcome.err, o2]).header "X-Forwarded-For"
        = c.ip ++ ", " ++ (c.ip ++ ", " ++ headerGet hdr "X-Forwarded-For")
    ∧ (c.unconditionalFetch = true →
        headerGet (GetPrerenderedPage c hdr [Outcome.err, o2]).header "If-Modified-Since" = ""
        ∧ headerGet (GetPrerenderedPage c hdr [Outcome.err, o2]).header "If-None-Match" = "") := by
  have h1 : retryLoop c [Outcome.err, o2]
        { header := hdr, events := [], outputStarted := false, attempts := 0 }
      = retryLoop c [o2]
        { header := buildHeaders c hdr, events := [], outputStarted := false, attempts := 1 } := rfl
  have hhd : (GetPrerenderedPage c hdr [Outcome.err, o2]).header
      = buildHeaders c (buildHeaders c hdr) := by
    rw [getPage_header, h1, retryLoop_single_fst]
    exact opFunc_header c (buildHeaders c hdr) o2
  refine ⟨hhd, ?_, ?_⟩
  · rw [hhd, headerGet_buildHeaders_xff, headerGet_buildHeaders_xff, if_neg hx,
      if_neg (append_sep_ne_empty _ _)]
  · intro hu
    constructor
    · rw [hhd]
      exact (headerGet_buildHeaders_cache c _ hu).1
    · rw [hhd]
      exact (headerGet_buildHeaders_cache c _ hu).2

/-- C7: the outbound `X-Forwarded-For` equals the configured IP when the
request (at build time) carries none, and `ip, existingChain` when it
carries one. -/
theorem C7_forwarded_for (c : Client) (hdr : Header) :
    (headerGet hdr "X-Forwarded-For" = "" →
        headerGet (buildHeaders c hdr) "X-Forwarded-For" = c.ip)
    ∧ (headerGet hdr "X-Forwarded-For" ≠ "" →
        headerGet (buildHeaders c hdr) "X-Forwarded-For"
          = c.ip ++ ", " ++ headerGet hdr "X-Forwarded-For") := by
  constructor
  · intro h; rw [headerGet_buildHeaders_xff, if_pos h]
  · intro h; rw [headerGet_buildHeaders_xff, if_neg h]

/-- Witness for `C7_forwarded_for`: no prior header, and the chain
`10.0.0.2, 10.0.0.1` of the repository's test. -/
theorem C7_witness :
    headerGet (buildHeaders { ip := "5.6.7.8" } []) "X-Forwarded-For" = "5.6.7.8"
    ∧ headerGet (buildHeaders { ip := "5.6.7.8" }
        [("X-Forwarded-For", "10.0.0.2, 10.0.0.1")]) "X-Forwarded-For"
        = "5.6.7.8, 10.0.0.2, 10.0.0.1" := by
  constructor
  · exact (C7_forwarded_for { ip := "5.6.7.8" } []).1 rfl
  · exact (C7_forwarded_for { ip := "5.6.7.8" }
      [("X-Forwarded-For", "10.0.0.2, 10.0.0.1")]).2 (by decide)

/-- Witness for `C10_header_aliasing`: two transient attempts double-prefix
the chain `10.0.0.2, 10.0.0.1` with IP `9.9.9.9`. -/
theorem C10_witness :
    (GetPrerenderedPage { ip := "9.9.9.9" } [("X-Forwarded-For", "10.0.0.2, 10.0.0.1")]
        [Outcome.err, Outcome.err]).header
      = buildHeaders { ip := "9.9.9.9" } (buildHeaders { ip := "9.9.9.9" }
          [("X-Forwarded-For", "10.0.0.2, 10.0.0.1")])
    ∧ headerGet (GetPrerenderedPage { ip := "9.9.9.9" }
        [("X-Forwarded-For", "10.0.0.2, 10.0.0.1")] [Outcome.err, Outcome.err]).header
        "X-Forwarded-For"
      = "9.9.9.9, 9.9.9.9, 10.0.0.2, 10.0.0.1" := by
  have h := C10_header_aliasing { ip := "9.9.9.9" }
    [("X-Forwarded-For", "10.0.0.2, 10.0.0.1")] Outcome.err (by decide)
  exact ⟨h.1, h.2.1⟩


/-- C5: with `RetryUnavailable` false, an upstream 503 or 404 is permanent:
exactly one attempt is made and (no body byte having been written) the caller
receives the configured fallback error response, whose status defaults to 503
when the config left it unset; with `RetryUnavailable` true the same first
outcome is transient and a further attempt is made. -/
theorem C5_unavailable_permanent (c : Client) (hdr : Header) (r : Response)
    (rest : List Outcome) (h : r.statusCode = 503 ∨ r.statusCode = 404) :
    (GetPrerenderedPage { c with retryUnavailable := false } hdr
        (Outcome.resp r :: rest)).attempts = 1
    ∧ (GetPrerenderedPage { c with retryUnavailable := false } hdr
        (Outcome.resp r :: rest)).events
        = [WriteEvent.errorResp "Upstream error" c.fetchErrorStatus]
    ∧ (rest ≠ [] →
        2 ≤ (GetPrerenderedPage { c with retryUnavailable := true } hdr
          (Outcome.resp r :: rest)).attempts)
    ∧ (∀ cfg : Config, cfg.token ≠ "" → cfg.fetchErrorStatus = 0 →
        ∃ c2, New cfg = Except.ok c2 ∧ c2.fetchErrorStatus = 503) := by
  have hop : ∀ x : Header, opFunc { c with retryUnavailable := false } x (Outcome.resp r)
      = { header := buildHeaders { c with retryUnavailable := false } x, events := [],
          result := OpResult.permanent, outputStarted := false } := by
    intro x
    rcases h with h | h <;> simp [opFunc, h]
  have hrun : GetPrerenderedPage { c with retryUnavailable := false } hdr
      (Outcome.resp r :: rest)
      = { header := buildHeaders { c with retryUnavailable := false } hdr,
          events := [WriteEvent.errorResp "Upstream error" c.fetchErrorStatus],
          outputStarted := false, attempts := 1 } := by
    simp only [GetPrerenderedPage, retryLoop_cons_eq, hop, stepState]
    simp
  refine ⟨by rw [hrun], by rw [hrun], ?_, ?_⟩
  · intro hne
    cases rest with
    | nil => exact absurd rfl hne
    | cons o rest' =>
      have hopT : opFunc { c with retryUnavailable := true } hdr (Outcome.resp r)
          = { header := buildHeaders { c with retryUnavailable := true } hdr, events := [],
              result := OpResult.transient, outputStarted := false } := by
        rcases h with h | h <;> simp [opFunc, h]
      have h2 := retryLoop_attempts_cons { c with retryUnavailable := true } o rest'
        (stepState { c with retryUnavailable := true }
          { header := hdr, events := [], outputStarted := false, attempts := 0 }
          (Outcome.resp r))
      rw [getPage_attempts, retryLoop_cons_eq]
      simp only [hopT]
      exact h2
  · intro cfg ht hf
    exact ⟨{ server := if cfg.server = "" then "http://api.seo4ajax.com" else cfg.server,
             token := cfg.token, ip := if cfg.ip = "" then "127.0.0.1" else cfg.ip,
             timeout := cfg.timeout, unconditionalFetch := cfg.unconditionalFetch,
             fetchErrorStatus := 503, fetchTimeout := cfg.fetchTimeout,
             retryUnavailable := cfg.retryUnavailable },
           by simp [New, ht, hf], rfl⟩

/-- Witness for `C5_unavailable_permanent`: a 503 first outcome with another
outcome available behind it, and a token-only config. -/
theorem C5_witness :
    (GetPrerenderedPage { fetchErrorStatus := 503, retryUnavailable := false } []
        [Outcome.resp { statusCode := 503 }, Outcome.err]).attempts = 1
    ∧ (GetPrerenderedPage { fetchErrorStatus := 503, retryUnavailable := false } []
        [Outcome.resp { statusCode := 503 }, Outcome.err]).events
        = [WriteEvent.errorResp "Upstream error" 503]
    ∧ 2 ≤ (GetPrerenderedPage { fetchErrorStatus := 503, retryUnavailable := true } []
        [Outcome.resp { statusCode := 503 }, Outcome.err]).attempts
    ∧ ∃ c2, New { token := "tok" } = Except.ok c2 ∧ c2.fetchErrorStatus = 503 := by
  have h := C5_unavailable_permanent { fetchErrorStatus := 503 } []
    { statusCode := 503 } [Outcome.err] (Or.inl rfl)
  exact ⟨h.1, h.2.1, h.2.2.1 (by simp), h.2.2.2 { token := "tok" } (by decide) rfl⟩

/-- C3: the claim says that once body bytes of a 200 response are streaming,
a streaming error terminates the partial stream with no further upstream
attempts. The code does terminate without a corrective error response (third
conjunct: no `errorResp` even though the run failed), but `opFunc` returns
the `io.Copy` error as an ordinary error, so `backoff.Retry` makes a second
upstream attempt and streams a second header copy and body into the
committed response (first two conjuncts) — contradicting the claim and the
code's own comment that it must return nil once writing has begun. -/
theorem C3_code_divergence :
    (GetPrerenderedPage c3client [] [Outcome.resp c3resp1, Outcome.resp c3resp2]).attempts = 2
    ∧ (GetPrerenderedPage c3client [] [Outcome.resp c3resp1, Outcome.resp c3resp2]).events
        = [WriteEvent.headersCopied [("Content-Type", "text/html")],
           WriteEvent.bodyChunk "partial",
           WriteEvent.headersCopied [("Content-Type", "text/html")],
           WriteEvent.bodyChunk "rest"]
    ∧ (GetPrerenderedPage c3client [] [Outcome.resp c3resp1]).events
        = [WriteEvent.headersCopied [("Content-Type", "text/html")],
           WriteEvent.bodyChunk "partial"] := by
  decide

theorem startsWithSlash_append (a b : String) (h : startsWithSlash a = true) :
    startsWithSlash (a ++ b) = true := by
  unfold startsWithSlash at *
  rw [String.data_append]
  cases hd : a.data with
  | nil => rw [hd] at h; simp at h
  | cons c t => rw [hd] at h; simpa using h

theorem startsWithSlash_slash_append (s : String) : startsWithSlash ("/" ++ s) = true := by
  unfold startsWithSlash
  rw [String.data_append]
  have hd : ("/" : String).data = ['/'] := rfl
  rw [hd]
  simp

theorem noColon_of_slash (s : String) (h : startsWithSlash s = true) :
    firstSegmentHasColon s = false := by
  unfold startsWithSlash at h
  unfold firstSegmentHasColon
  cases hd : s.data with
  | nil => rfl
  | cons c t =>
    rw [hd] at h
    have hc : c = '/' := by simpa using h
    rw [List.takeWhile_cons]
    simp [hc]

theorem normPath_slash (path : String) : startsWithSlash (normPath path) = true := by
  unfold normPath
  by_cases h0 : path = ""
  · simp only [h0, if_true, if_pos]
    decide
  · rw [if_neg h0]
    by_cases h1 : startsWithSlash path = false
    · rw [if_pos h1]
      exact startsWithSlash_slash_append path
    · rw [if_neg h1]
      exact eq_true_of_ne_false h1

theorem cleanPath_eq (u : URL) (hfrag : u.fragment = "") :
    cleanPath u
      = normPath u.path
        ++ (if u.forceQuery ∨ u.rawQuery ≠ "" then "?" ++ u.rawQuery else "") := by
  have hcolon := noColon_of_slash _ (normPath_slash u.path)
  unfold cleanPath urlString
  simp only [normPath] at hcolon
  simp [querySuffix, fragmentSuffix, hfrag, hcolon, normPath]



/-- C8: for any request URL (no fragment), `cleanPath` returns exactly the
path — normalized to start with `/` — plus `?query` when a query is present,
with scheme, host/authority and userinfo stripped; the outbound URL is
`{server}/{token}` followed by this normalized path. Includes the spec's two
concrete examples. -/
theorem C8_clean_path (u : URL) (server token : String) (hfrag : u.fragment = "") :
    cleanPath u
      = normPath u.path
        ++ (if u.forceQuery ∨ u.rawQuery ≠ "" then "?" ++ u.rawQuery else "")
    ∧ startsWithSlash (cleanPath u) = true
    ∧ upstreamURL server token u = server ++ "/" ++ token ++ cleanPath u
    ∧ cleanPath { scheme := "http", host := "host", path := "/a/b", rawQuery := "x=1" }
        = "/a/b?x=1"
    ∧ cleanPath { scheme := "http", user := some "alice", host := "host", path := "" } = "/" := by
  refine ⟨cleanPath_eq u hfrag, ?_, rfl, by decide, by decide⟩
  rw [cleanPath_eq u hfrag]
  exact startsWithSlash_append _ _ (normPath_slash u.path)

/-- Witness for `C8_clean_path` at `http://host/a/b?x=1`. -/
theorem C8_witness :
    cleanPath c8url = "/a/b?x=1"
    ∧ startsWithSlash (cleanPath c8url) = true
    ∧ upstreamURL "http://api.seo4ajax.com" "tok" c8url
        = "http://api.seo4ajax.com" ++ "/" ++ "tok" ++ cleanPath c8url := by
  have h := C8_clean_path c8url "http://api.seo4ajax.com" "tok" rfl
  exact ⟨h.2.2.2.1, h.2.1, h.2.2.1⟩

end Seo4Ajax
